import Mathlib

/-!
Verification of the order-tagging engine of `wondtags`.

The repository processes Shopify orders: it fetches orders/customers through a
paginated REST API, computes for each order a classification tag set (a 1-based
sequence number plus a `new-customer`/`returning-customer` marker), and writes
the tags back, throttled by a Bottleneck rate limiter and retry wrappers.

This file is a shallow embedding of that code: JS strings are Lean `String`s
(or `List Char` where character-level reasoning is needed), remote calls are
modelled by explicit environments / traces, and fallible code returns `Except`.
-/

set_option autoImplicit false

namespace WondTags

/-! ### Order Tag Calculator

Embeds the tag computation appearing (identically) in all three source
variants, e.g. `src/unnamed/part_001` lines 117-127:

    let tags = order.tags ? order.tags.split(',').map(t => t.trim()) : [];
    tags = tags.filter(t => !/^\d+$/.test(t) && t !== 'new-customer' && t !== 'returning-customer');
    const totalCount = previousCount + 1;
    if (previousCount === 0) { tags.push('1', 'new-customer'); }
    else { tags.push(`${totalCount}`, 'returning-customer'); }
-/

/-- The JS regex test `/^\d+$/.test(t)`: `t` is non-empty and consists only of
decimal digits. -/
def isNumericTag (t : String) : Bool :=
  !t.data.isEmpty && t.data.all Char.isDigit

/-- The filter predicate: `!/^\d+$/.test(t) && t !== 'new-customer' && t !== 'returning-customer'`. -/
def keepTag (t : String) : Bool :=
  !isNumericTag t && t != "new-customer" && t != "returning-customer"

/-- The strip-and-re-add tag computation (`previousCount` is the prior order
count, the pushed numeric tag is the decimal string of `previousCount + 1`;
JS template interpolation of a number is its decimal representation). -/
def computeTags (tags : List String) (previousCount : Nat) : List String :=
  let kept := tags.filter keepTag
  if previousCount = 0 then
    kept ++ ["1", "new-customer"]
  else
    kept ++ [Nat.repr (previousCount + 1), "returning-customer"]

/-! Facts about decimal representations of naturals. -/

theorem digitChar_isDigit {n : Nat} (h : n < 10) : (Nat.digitChar n).isDigit = true := by
  interval_cases n <;> decide

theorem toDigitsCore_all_isDigit (fuel : Nat) :
    ∀ (n : Nat) (ds : List Char), ds.all Char.isDigit = true →
      (Nat.toDigitsCore 10 fuel n ds).all Char.isDigit = true := by
  induction fuel with
  | zero => intro n ds hds; simpa [Nat.toDigitsCore] using hds
  | succ fuel ih =>
    intro n ds hds
    have hd : (Nat.digitChar (n % 10)).isDigit = true :=
      digitChar_isDigit (Nat.mod_lt _ (by norm_num))
    simp only [Nat.toDigitsCore]
    split
    · simpa [List.all_cons, hd] using hds
    · exact ih _ _ (by simp [List.all_cons, hd, hds])

theorem toDigitsCore_ne_nil (fuel : Nat) :
    ∀ (n : Nat) (ds : List Char), ds ≠ [] → Nat.toDigitsCore 10 fuel n ds ≠ [] := by
  induction fuel with
  | zero => intro n ds hds; simpa [Nat.toDigitsCore] using hds
  | succ fuel ih =>
    intro n ds hds
    simp only [Nat.toDigitsCore]
    split
    · simp
    · exact ih _ _ (by simp)

theorem toDigits_ne_nil (n : Nat) : Nat.toDigits 10 n ≠ [] := by
  show Nat.toDigitsCore 10 (n + 1) n [] ≠ []
  simp only [Nat.toDigitsCore]
  split
  · simp
  · exact toDigitsCore_ne_nil _ _ _ (by simp)

theorem repr_data (n : Nat) : (Nat.repr n).data = Nat.toDigits 10 n := rfl

theorem isNumericTag_repr (n : Nat) : isNumericTag (Nat.repr n) = true := by
  unfold isNumericTag
  rw [repr_data]
  have h1 : (Nat.toDigits 10 n).isEmpty = false := by
    simpa [List.isEmpty_iff] using toDigits_ne_nil n
  have h2 : (Nat.toDigits 10 n).all Char.isDigit = true :=
    toDigitsCore_all_isDigit _ _ _ (by simp)
  simp [h1, h2]

theorem repr_ne_new (n : Nat) : Nat.repr n ≠ "new-customer" := by
  intro h
  have := isNumericTag_repr n
  rw [h] at this
  exact absurd this (by decide)

theorem repr_ne_returning (n : Nat) : Nat.repr n ≠ "returning-customer" := by
  intro h
  have := isNumericTag_repr n
  rw [h] at this
  exact absurd this (by decide)

theorem keepTag_repr (n : Nat) : keepTag (Nat.repr n) = false := by
  unfold keepTag
  rw [isNumericTag_repr]
  rfl

theorem keepTag_iff (t : String) :
    keepTag t = true ↔
      isNumericTag t = false ∧ t ≠ "new-customer" ∧ t ≠ "returning-customer" := by
  simp [keepTag, and_assoc]

/-- The tag computation in kept-plus-suffix form. -/
theorem computeTags_eq (tags : List String) (n : Nat) :
    computeTags tags n =
      tags.filter keepTag ++
        (if n = 0 then ["1", "new-customer"]
         else [Nat.repr (n + 1), "returning-customer"]) := by
  unfold computeTags
  split <;> simp_all

theorem computeTags_zero (tags : List String) :
    computeTags tags 0 = tags.filter keepTag ++ ["1", "new-customer"] := by
  unfold computeTags
  simp

theorem computeTags_succ (tags : List String) (n : Nat) :
    computeTags tags (n + 1) =
      tags.filter keepTag ++ [Nat.repr (n + 2), "returning-customer"] := by
  unfold computeTags
  simp

theorem isNumericTag_new : isNumericTag "new-customer" = false := by decide

theorem isNumericTag_returning : isNumericTag "returning-customer" = false := by decide

theorem filter_keepTag_suffix (n : Nat) :
    (if n = 0 then ["1", "new-customer"]
     else [Nat.repr (n + 1), "returning-customer"]).filter keepTag = [] := by
  split
  · decide
  · simp [List.filter, keepTag_repr, (by decide : keepTag "returning-customer" = false)]

theorem filter_keepTag_computeTags (tags : List String) (n : Nat) :
    (computeTags tags n).filter keepTag = tags.filter keepTag := by
  rw [computeTags_eq, List.filter_append, filter_keepTag_suffix]
  simp [List.filter_filter]

/-- C1: applying the strip-and-re-add tag computation to its own output with
the same prior order count yields the same tag list:
`computeTags (computeTags tags n) n = computeTags tags n`. -/
theorem computeTags_idempotent (tags : List String) (n : Nat) :
    computeTags (computeTags tags n) n = computeTags tags n := by
  rw [computeTags_eq (computeTags tags n) n, filter_keepTag_computeTags,
    computeTags_eq tags n]

/-- C2: for every input tag list and prior order count the output contains
exactly one purely numeric tag and exactly one of the two classification
markers, the kept portion of the output is exactly the non-classification
input tags (so no numeric tag or marker from the input survives into it, and
all non-classification input tags are preserved in order). -/
theorem computeTags_invariants (tags : List String) (n : Nat) :
    (computeTags tags n).countP isNumericTag = 1 ∧
    (computeTags tags n).countP
      (fun t => t == "new-customer" || t == "returning-customer") = 1 ∧
    (computeTags tags n).filter keepTag = tags.filter keepTag ∧
    (tags.filter keepTag).all
      (fun t => !isNumericTag t && t != "new-customer" && t != "returning-customer")
      = true := by
  refine ⟨?_, ?_, filter_keepTag_computeTags tags n, ?_⟩
  · rw [computeTags_eq, List.countP_append]
    have hkept : (tags.filter keepTag).countP isNumericTag = 0 := by
      rw [List.countP_eq_zero]
      intro t ht
      have := ((keepTag_iff t).1 (List.of_mem_filter ht)).1
      simp [this]
    rw [hkept]
    split
    · decide
    · simp [List.countP_cons, isNumericTag_repr,
        (by decide : isNumericTag "returning-customer" = false)]
  · rw [computeTags_eq, List.countP_append]
    have hkept : (tags.filter keepTag).countP
        (fun t => t == "new-customer" || t == "returning-customer") = 0 := by
      rw [List.countP_eq_zero]
      intro t ht
      obtain ⟨-, h1, h2⟩ := (keepTag_iff t).1 (List.of_mem_filter ht)
      simp [h1, h2]
    rw [hkept]
    split
    · decide
    · simp [List.countP_cons, repr_ne_new, repr_ne_returning]
  · rw [List.all_eq_true]
    intro t ht
    exact List.mem_filter.1 ht |>.2

/-- C3: for every input tag list, with prior order count `0` the result
contains `"1"` and `"new-customer"`, never `"returning-customer"`, and every
purely numeric tag in it is `"1"`; with prior order count `n + 1 > 0` the
result contains the decimal string of `n + 2` and `"returning-customer"`,
never `"new-customer"`, and every purely numeric tag in it is that decimal
string. -/
theorem computeTags_classification (tags : List String) (n : Nat) :
    ("1" ∈ computeTags tags 0 ∧ "new-customer" ∈ computeTags tags 0 ∧
      (computeTags tags 0).all (fun t => t != "returning-customer") = true ∧
      (computeTags tags 0).all (fun t => !isNumericTag t || t == "1") = true) ∧
    (Nat.repr (n + 2) ∈ computeTags tags (n + 1) ∧
      "returning-customer" ∈ computeTags tags (n + 1) ∧
      (computeTags tags (n + 1)).all (fun t => t != "new-customer") = true ∧
      (computeTags tags (n + 1)).all
        (fun t => !isNumericTag t || t == Nat.repr (n + 2)) = true) := by
  constructor
  · rw [computeTags_zero]
    refine ⟨by simp, by simp, ?_, ?_⟩
    · rw [List.all_eq_true]
      intro t ht
      rcases List.mem_append.1 ht with h | h
      · obtain ⟨-, -, h2⟩ := (keepTag_iff t).1 (List.of_mem_filter h)
        simpa using h2
      · simp only [List.mem_cons, List.not_mem_nil, or_false] at h
        rcases h with h | h <;> simp [h]
    · rw [List.all_eq_true]
      intro t ht
      rcases List.mem_append.1 ht with h | h
      · have := ((keepTag_iff t).1 (List.of_mem_filter h)).1
        simp [this]
      · simp only [List.mem_cons, List.not_mem_nil, or_false] at h
        rcases h with h | h <;> simp [h, isNumericTag_new]
  · rw [computeTags_succ]
    refine ⟨by simp, by simp, ?_, ?_⟩
    · rw [List.all_eq_true]
      intro t ht
      rcases List.mem_append.1 ht with h | h
      · obtain ⟨-, h1, -⟩ := (keepTag_iff t).1 (List.of_mem_filter h)
        simpa using h1
      · simp only [List.mem_cons, List.not_mem_nil, or_false] at h
        rcases h with h | h
        · simp [h, repr_ne_new]
        · simp [h]
    · rw [List.all_eq_true]
      intro t ht
      rcases List.mem_append.1 ht with h | h
      · have := ((keepTag_iff t).1 (List.of_mem_filter h)).1
        simp [this]
      · simp only [List.mem_cons, List.not_mem_nil, or_false] at h
        rcases h with h | h <;> simp [h, isNumericTag_returning]

/-! ### Tag serialization (C10)

Writing: `tags.join(', ')` (`src/unnamed/part_001` line 92).
Reading: `order.tags ? order.tags.split(',').map(t => t.trim()) : []`
(`src/unnamed/part_001` line 117; the empty string is falsy in JS, so an
empty tags field reads back as the empty list).

JS strings are modelled as their character lists. -/

/-- JS `String.prototype.trim`: drop whitespace from both ends. -/
def jsTrim (s : List Char) : List Char :=
  ((s.dropWhile Char.isWhitespace).reverse.dropWhile Char.isWhitespace).reverse

/-- JS `s.split(',')`: split at every comma; `''.split(',') = ['']`. -/
def jsSplitComma : List Char → List (List Char)
  | [] => [[]]
  | c :: cs =>
    if c = ',' then [] :: jsSplitComma cs
    else
      match jsSplitComma cs with
      | [] => [[c]]
      | t :: ts => (c :: t) :: ts

/-- JS `tags.join(', ')`. -/
def joinTags : List (List Char) → List Char
  | [] => []
  | [t] => t
  | t :: u :: ts => t ++ ',' :: ' ' :: joinTags (u :: ts)

/-- The read path `s ? s.split(',').map(t => t.trim()) : []`. -/
def parseTags (s : List Char) : List (List Char) :=
  if s.isEmpty then [] else (jsSplitComma s).map jsTrim

theorem jsSplitComma_no_comma {x : List Char} (h : ',' ∉ x) :
    jsSplitComma x = [x] := by
  induction x with
  | nil => rfl
  | cons c cs ih =>
    have hc : ¬c = ',' := fun e => h (e ▸ List.mem_cons_self c cs)
    have hcs : ',' ∉ cs := fun m => h (List.mem_cons_of_mem _ m)
    simp only [jsSplitComma, if_neg hc, ih hcs]

theorem jsSplitComma_append {x : List Char} (h : ',' ∉ x) (ys : List Char) :
    jsSplitComma (x ++ ',' :: ys) = x :: jsSplitComma ys := by
  induction x with
  | nil => simp [jsSplitComma]
  | cons c cs ih =>
    have hc : ¬c = ',' := fun e => h (e ▸ List.mem_cons_self c cs)
    have hcs : ',' ∉ cs := fun m => h (List.mem_cons_of_mem _ m)
    simp only [List.cons_append, jsSplitComma, if_neg hc, List.append_eq, ih hcs]

theorem jsSplitComma_joinTags (as : List (List Char)) :
    ∀ a : List Char, ',' ∉ a → (∀ u ∈ as, ',' ∉ u) →
      jsSplitComma (joinTags (a :: as)) = a :: as.map (fun u => ' ' :: u) := by
  induction as with
  | nil =>
    intro a ha _
    simp [joinTags, jsSplitComma_no_comma ha]
  | cons u rest ih =>
    intro a ha hall
    have hu : ',' ∉ u := hall u (List.mem_cons_self u rest)
    have hrest : ∀ v ∈ rest, ',' ∉ v := fun v hv => hall v (List.mem_cons_of_mem _ hv)
    show jsSplitComma (a ++ ',' :: ' ' :: joinTags (u :: rest)) = _
    rw [jsSplitComma_append ha]
    have hspace : jsSplitComma (' ' :: joinTags (u :: rest)) =
        (' ' :: u) :: rest.map (fun v => ' ' :: v) := by
      simp only [jsSplitComma, if_neg (by decide : ¬(' ' = ','))]
      rw [ih u hu hrest]
    rw [hspace]
    simp

theorem jsTrim_space_cons (u : List Char) : jsTrim (' ' :: u) = jsTrim u := by
  unfold jsTrim
  simp [List.dropWhile_cons]

theorem joinTags_ne_nil {a : List Char} (ha : a ≠ []) (as : List (List Char)) :
    joinTags (a :: as) ≠ [] := by
  cases as with
  | nil => simpa [joinTags] using ha
  | cons u rest => simp [joinTags]

/-- C10 counterexample: the tag list `[""]` (one empty tag — it contains no
comma and has no surrounding whitespace) joins to the empty string, which the
read path maps to the empty tag list, not back to `[""]`. -/
theorem parseTags_joinTags_empty_tag :
    (',' ∉ ([] : List Char)) ∧ jsTrim ([] : List Char) = [] ∧
    parseTags (joinTags [([] : List Char)]) ≠ [([] : List Char)] := by
  refine ⟨by simp, rfl, by decide⟩

/-- C10 (amended): for every tag list whose elements are non-empty, contain no
comma, and carry no leading or trailing whitespace, writing the tags joined by
`', '` and reading them back (split on `','`, trim each piece, empty string
reads as the empty list) yields the original tag list. -/
theorem parseTags_joinTags (ts : List (List Char))
    (hne : ∀ t ∈ ts, t ≠ [])
    (hcomma : ∀ t ∈ ts, ',' ∉ t)
    (htrim : ∀ t ∈ ts, jsTrim t = t) :
    parseTags (joinTags ts) = ts := by
  cases ts with
  | nil => rfl
  | cons a as =>
    have hmem : a ∈ a :: as := List.mem_cons_self a as
    have hjoin : (joinTags (a :: as)).isEmpty = false := by
      simpa [List.isEmpty_iff] using joinTags_ne_nil (hne a hmem) as
    unfold parseTags
    rw [hjoin]
    simp only [Bool.false_eq_true, if_false]
    rw [jsSplitComma_joinTags as a (hcomma a hmem)
      (fun u hu => hcomma u (List.mem_cons_of_mem _ hu))]
    rw [List.map_cons, htrim a hmem, List.map_map]
    have : as.map (jsTrim ∘ fun u => ' ' :: u) = as.map id := by
      refine List.map_congr_left (fun u hu => ?_)
      have := htrim u (List.mem_cons_of_mem _ hu)
      simp [Function.comp, jsTrim_space_cons, this]
    rw [this, List.map_id]

/-- Witness for the amended C10 at a concrete tag list. -/
theorem parseTags_joinTags_witness :
    parseTags (joinTags [['v', 'i', 'p'], ['2']]) = [['v', 'i', 'p'], ['2']] :=
  parseTags_joinTags _ (by decide) (by decide) (by decide)

/-! ### Retry wrappers (C6)

`retryRequest` embeds `src/unnamed/part_001` lines 30-39; `limitedGet` embeds
the GET wrapper of `src/index.js` (second variant) lines 187-199.  The
underlying call is modelled as a function from the attempt index to its
outcome; each wrapper returns the final outcome, the number of attempts made
and the list of back-off delays slept (in ms). -/

/-- Embeds `retryRequest(fn, retries = 3, delay = 500)`: try `fn`; on failure, if
`retries === 0` rethrow, else sleep `delay` and recurse with `retries - 1`
and `delay * 2`. -/
def retryRequest {E A : Type} (fn : Nat → Except E A) (retries delay k : Nat) :
    Except E A × Nat × List Nat :=
  match fn k with
  | .ok a => (.ok a, 1, [])
  | .error e =>
    match retries with
    | 0 => (.error e, 1, [])
    | r + 1 =>
      let res := retryRequest fn r (delay * 2) (k + 1)
      (res.1, res.2.1 + 1, delay :: res.2.2)

/-- The loop of `limitedGet`: `while (attempts < 5) { try return get; catch
{ attempts++; sleep(500 * attempts); } } throw`.  The terminal throw is
`none`. -/
def limitedGetLoop {E A : Type} (fn : Nat → Except E A) (attempts : Nat) :
    Option A × Nat × List Nat :=
  if attempts < 5 then
    match fn attempts with
    | .ok a => (some a, 1, [])
    | .error _ =>
      let res := limitedGetLoop fn (attempts + 1)
      (res.1, res.2.1 + 1, 500 * (attempts + 1) :: res.2.2)
  else (none, 0, [])
termination_by 5 - attempts

def limitedGet {E A : Type} (fn : Nat → Except E A) : Option A × Nat × List Nat :=
  limitedGetLoop fn 0

theorem retryRequest_ok {E A : Type} {fn : Nat → Except E A} {k : Nat} {a : A}
    (ha : fn k = .ok a) (retries delay : Nat) :
    retryRequest fn retries delay k = (.ok a, 1, []) := by
  rw [retryRequest.eq_def, ha]

theorem retryRequest_error_zero {E A : Type} {fn : Nat → Except E A} {k : Nat}
    {e : E} (he : fn k = .error e) (delay : Nat) :
    retryRequest fn 0 delay k = (.error e, 1, []) := by
  rw [retryRequest.eq_def, he]

theorem retryRequest_error_succ {E A : Type} {fn : Nat → Except E A} {k : Nat}
    {e : E} (he : fn k = .error e) (r delay : Nat) :
    retryRequest fn (r + 1) delay k =
      ((retryRequest fn r (delay * 2) (k + 1)).1,
       (retryRequest fn r (delay * 2) (k + 1)).2.1 + 1,
       delay :: (retryRequest fn r (delay * 2) (k + 1)).2.2) := by
  rw [retryRequest.eq_def, he]

theorem retryRequest_all_fail {E A : Type} (fn : Nat → Except E A)
    (hfail : ∀ k, ∃ e, fn k = .error e) :
    ∀ retries delay k,
      (retryRequest fn retries delay k).1.isOk = false ∧
      (retryRequest fn retries delay k).2.1 = retries + 1 ∧
      (retryRequest fn retries delay k).2.2 =
        (List.range retries).map (fun i => delay * 2 ^ i) := by
  intro retries
  induction retries with
  | zero =>
    intro delay k
    obtain ⟨e, he⟩ := hfail k
    rw [retryRequest_error_zero he]
    exact ⟨rfl, rfl, by simp⟩
  | succ r ih =>
    intro delay k
    obtain ⟨e, he⟩ := hfail k
    obtain ⟨h1, h2, h3⟩ := ih (delay * 2) (k + 1)
    rw [retryRequest_error_succ he]
    refine ⟨h1, by simpa using h2, ?_⟩
    simp only [h3, List.range_succ_eq_map, List.map_cons, List.map_map]
    refine congrArg₂ _ (by ring) ?_
    refine List.map_congr_left (fun i _ => ?_)
    simp [Function.comp, Nat.pow_succ]
    ring

theorem limitedGetLoop_ok {E A : Type} {fn : Nat → Except E A} {attempts : Nat}
    {a : A} (h5 : attempts < 5) (ha : fn attempts = .ok a) :
    limitedGetLoop fn attempts = (some a, 1, []) := by
  rw [limitedGetLoop.eq_def, if_pos h5, ha]

theorem limitedGetLoop_error {E A : Type} {fn : Nat → Except E A} {attempts : Nat}
    {e : E} (h5 : attempts < 5) (he : fn attempts = .error e) :
    limitedGetLoop fn attempts =
      ((limitedGetLoop fn (attempts + 1)).1,
       (limitedGetLoop fn (attempts + 1)).2.1 + 1,
       500 * (attempts + 1) :: (limitedGetLoop fn (attempts + 1)).2.2) := by
  rw [limitedGetLoop.eq_def, if_pos h5, he]

theorem limitedGetLoop_stop {E A : Type} (fn : Nat → Except E A) :
    limitedGetLoop fn 5 = (none, 0, []) := by
  rw [limitedGetLoop.eq_def, if_neg (by omega)]

/-- C6: for every wrapped request, if the underlying call fails twice and then
succeeds both wrappers return the success result having made exactly 3
attempts (delays 500 ms then 1000 ms); if the underlying call always fails,
`limitedGet` raises its terminal failure after exactly 5 attempts with
linearly increasing delays 500..2500 ms, and `retryRequest` with budget
`retries` raises the underlying error after exactly `retries + 1` attempts
with exponentially increasing delays `delay * 2 ^ i` — so an error reaches
the caller only once retries are exhausted. -/
theorem retryWrappers_spec {E A : Type} (fn : Nat → Except E A) (a : A)
    (e0 e1 : E) :
    (fn 0 = .error e0 → fn 1 = .error e1 → fn 2 = .ok a →
      limitedGet fn = (some a, 3, [500, 1000]) ∧
      retryRequest fn 3 500 0 = (.ok a, 3, [500, 1000])) ∧
    ((∀ k, ∃ e, fn k = .error e) →
      limitedGet fn = (none, 5, [500, 1000, 1500, 2000, 2500]) ∧
      ∀ retries delay k,
        (retryRequest fn retries delay k).1.isOk = false ∧
        (retryRequest fn retries delay k).2.1 = retries + 1 ∧
        (retryRequest fn retries delay k).2.2 =
          (List.range retries).map (fun i => delay * 2 ^ i)) := by
  constructor
  · intro h0 h1 h2
    constructor
    · unfold limitedGet
      rw [limitedGetLoop_error (by omega) h0, limitedGetLoop_error (by omega) h1,
        limitedGetLoop_ok (by omega) h2]
    · rw [retryRequest_error_succ h0, retryRequest_error_succ h1,
        retryRequest_ok h2]
  · intro hfail
    constructor
    · obtain ⟨v0, h0⟩ := hfail 0
      obtain ⟨v1, h1⟩ := hfail 1
      obtain ⟨v2, h2⟩ := hfail 2
      obtain ⟨v3, h3⟩ := hfail 3
      obtain ⟨v4, h4⟩ := hfail 4
      unfold limitedGet
      rw [limitedGetLoop_error (by omega) h0, limitedGetLoop_error (by omega) h1,
        limitedGetLoop_error (by omega) h2, limitedGetLoop_error (by omega) h3,
        limitedGetLoop_error (by omega) h4, limitedGetLoop_stop]
    · exact retryRequest_all_fail fn hfail

/-- A call that fails on its first two attempts and succeeds on the third. -/
def callFailTwice : Nat → Except String Nat :=
  fun k => if k < 2 then .error "boom" else .ok 7

/-- A call that fails on every attempt. -/
def callAlwaysFail : Nat → Except String Nat :=
  fun _ => .error "boom"

/-- Witness for C6 at concrete underlying calls. -/
theorem retryWrappers_spec_witness :
    (limitedGet callFailTwice = (some 7, 3, [500, 1000]) ∧
      retryRequest callFailTwice 3 500 0 = (.ok 7, 3, [500, 1000])) ∧
    (limitedGet callAlwaysFail = (none, 5, [500, 1000, 1500, 2000, 2500]) ∧
      (retryRequest callAlwaysFail 3 500 0).2.1 = 4 ∧
      (retryRequest callAlwaysFail 3 500 0).2.2 = [500, 1000, 2000]) := by
  have hs := (retryWrappers_spec callFailTwice 7 "boom" "boom").1 rfl rfl rfl
  have hf := (retryWrappers_spec callAlwaysFail 7 "boom" "boom").2
    (fun k => ⟨"boom", rfl⟩)
  refine ⟨hs, hf.1, (hf.2 3 500 0).2.1, ?_⟩
  rw [(hf.2 3 500 0).2.2]
  decide

/-! ### Paginator (C7)

Embeds `getNextPageInfo` and the `do { res = get(url); acc = acc.concat(...);
pageInfo = getNextPageInfo(res.headers.link) } while (pageInfo)` loop of
`getAllOrders` (`src/unnamed/part_000` lines 35-59).  The link header is
modelled structurally: a list of links each carrying its query parameters and
its `rel`; `getNextPageInfo` picks the first link with `rel="next"` and reads
its `page_info` parameter.  Cursor values are opaque (type parameter `κ`).
The remote endpoint is a function from the request cursor to a page response;
the loop carries fuel, returning `none` if the fuel is exhausted before a
response without a "next" relation is reached. -/

structure Link (κ : Type) where
  params : List (String × κ)
  rel : String

structure PageResponse (κ : Type) where
  records : List Nat
  link : Option (List (Link κ))

def getNextPageInfo {κ : Type} (linkHeader : Option (List (Link κ))) : Option κ :=
  match linkHeader with
  | none => none
  | some links =>
    match links.find? (fun l => l.rel == "next") with
    | some l => (l.params.find? (fun p => p.1 == "page_info")).map Prod.snd
    | none => none

def getAllOrdersLoop {κ : Type} (srv : Option κ → PageResponse κ) (fuel : Nat)
    (pageInfo : Option κ) (acc : List Nat) (calls : Nat) :
    Option (List Nat × Nat) :=
  match fuel with
  | 0 => none
  | fuel + 1 =>
    let res := srv pageInfo
    let acc2 := acc ++ res.records
    match getNextPageInfo res.link with
    | none => some (acc2, calls + 1)
    | some pi => getAllOrdersLoop srv fuel (some pi) acc2 (calls + 1)

def getAllOrders {κ : Type} (srv : Option κ → PageResponse κ) (fuel : Nat) :
    Option (List Nat × Nat) :=
  getAllOrdersLoop srv fuel none [] 0

/-- A mocked listing endpoint serving the given pages in order: the cursor is
the index of the page to serve, and every page except the last links to its
successor through a `rel="next"` link carrying a `page_info` parameter. -/
def pagedServer (pages : List (List Nat)) (cursor : Option Nat) :
    PageResponse Nat :=
  let i := cursor.getD 0
  { records := pages.getD i []
    link :=
      if i + 1 < pages.length then
        some [{ params := [("page_info", i + 1)], rel := "next" }]
      else none }

theorem pagedServer_next (pages : List (List Nat)) (c : Option Nat) :
    getNextPageInfo (pagedServer pages c).link =
      if c.getD 0 + 1 < pages.length then some (c.getD 0 + 1) else none := by
  by_cases h : c.getD 0 + 1 < pages.length
  · rw [if_pos h]
    simp only [pagedServer, if_pos h]
    simp [getNextPageInfo, List.find?]
  · rw [if_neg h]
    simp only [pagedServer, if_neg h]
    rfl

theorem getAllOrdersLoop_step_none {κ : Type} (srv : Option κ → PageResponse κ)
    (fuel : Nat) (pageInfo : Option κ) (acc : List Nat) (calls : Nat)
    (h : getNextPageInfo (srv pageInfo).link = none) :
    getAllOrdersLoop srv (fuel + 1) pageInfo acc calls =
      some (acc ++ (srv pageInfo).records, calls + 1) := by
  have e : getAllOrdersLoop srv (fuel + 1) pageInfo acc calls =
      match getNextPageInfo (srv pageInfo).link with
      | none => some (acc ++ (srv pageInfo).records, calls + 1)
      | some pi => getAllOrdersLoop srv fuel (some pi)
          (acc ++ (srv pageInfo).records) (calls + 1) := rfl
  rw [e, h]

theorem getAllOrdersLoop_step_some {κ : Type} (srv : Option κ → PageResponse κ)
    (fuel : Nat) (pageInfo : Option κ) (acc : List Nat) (calls : Nat) (pi : κ)
    (h : getNextPageInfo (srv pageInfo).link = some pi) :
    getAllOrdersLoop srv (fuel + 1) pageInfo acc calls =
      getAllOrdersLoop srv fuel (some pi)
        (acc ++ (srv pageInfo).records) (calls + 1) := by
  have e : getAllOrdersLoop srv (fuel + 1) pageInfo acc calls =
      match getNextPageInfo (srv pageInfo).link with
      | none => some (acc ++ (srv pageInfo).records, calls + 1)
      | some pi => getAllOrdersLoop srv fuel (some pi)
          (acc ++ (srv pageInfo).records) (calls + 1) := rfl
  rw [e, h]

theorem getAllOrdersLoop_pagedServer (pages : List (List Nat)) :
    ∀ (fuel : Nat) (c : Option Nat) (i : Nat) (acc : List Nat) (calls : Nat),
      c.getD 0 = i → i < pages.length → pages.length - i ≤ fuel →
      getAllOrdersLoop (pagedServer pages) fuel c acc calls =
        some (acc ++ (pages.drop i).flatten, calls + (pages.length - i)) := by
  intro fuel
  induction fuel with
  | zero => intro c i acc calls _ hi hfuel; omega
  | succ fuel ih =>
    intro c i acc calls hc hi hfuel
    have hrec : (pagedServer pages c).records = pages[i] := by
      simp [pagedServer, hc, List.getD_eq_getElem?_getD, List.getElem?_eq_getElem hi]
    have hdrop : pages.drop i = pages[i] :: pages.drop (i + 1) :=
      List.drop_eq_getElem_cons hi
    by_cases hnext : i + 1 < pages.length
    · have hn : getNextPageInfo ((pagedServer pages) c).link = some (i + 1) := by
        rw [pagedServer_next, hc, if_pos hnext]
      rw [getAllOrdersLoop_step_some _ _ _ _ _ _ hn,
        ih (some (i + 1)) (i + 1) _ (calls + 1) rfl hnext (by omega),
        hrec, hdrop]
      simp only [List.flatten_cons, List.append_assoc]
      refine congrArg _ (congrArg _ ?_)
      omega
    · have hn : getNextPageInfo ((pagedServer pages) c).link = none := by
        rw [pagedServer_next, hc, if_neg hnext]
      rw [getAllOrdersLoop_step_none _ _ _ _ _ hn, hrec, hdrop,
        List.drop_eq_nil_of_le (by omega)]
      have hone : pages.length - i = 1 := by omega
      simp [hone]

/-- C7: for every remote listing served as a finite sequence of pages chained
by `rel="next"` links, the pagination loop returns the concatenation of all
pages in server order, issues exactly one request per page, and the response
to the last request carries no "next" relation (which is what ends the
loop). -/
theorem getAllOrders_pagedServer (pages : List (List Nat)) (h : pages ≠ []) :
    getAllOrders (pagedServer pages) pages.length =
      some (pages.flatten, pages.length) ∧
    getNextPageInfo (pagedServer pages (some (pages.length - 1))).link = none := by
  have hlen : 0 < pages.length := List.length_pos.2 h
  constructor
  · unfold getAllOrders
    have := getAllOrdersLoop_pagedServer pages pages.length none 0 [] 0 rfl hlen
      (by omega)
    simpa using this
  · rw [pagedServer_next]
    rw [if_neg (by simp; omega)]

/-- The mocked endpoint of the spec's paginator test: 3 pages of 250, 250 and
10 records. -/
def mockPages : List (List Nat) :=
  [List.range 250, (List.range 250).map (· + 250), (List.range 10).map (· + 500)]

/-- Witness for C7: on the mocked 250/250/10 endpoint the loop returns all
pages concatenated — exactly 510 records — in exactly 3 calls. -/
theorem getAllOrders_pagedServer_witness :
    getAllOrders (pagedServer mockPages) 3 = some (mockPages.flatten, 3) ∧
    mockPages.flatten.length = 510 := by
  have hne : mockPages ≠ [] := by simp [mockPages]
  have hlen : mockPages.length = 3 := by simp [mockPages]
  have h := (getAllOrders_pagedServer mockPages hne).1
  rw [hlen] at h
  exact ⟨h, by simp [mockPages]⟩

/-! ### Synchronization driver (C4)

Embeds the customer-scoped driver of `src/index.js` (first variant): the run
handler `/run` validates the dates, `processOrdersInBatches` fetches all
customers, walks them in slices of `BATCH_SIZE = 50`, fetches each customer's
orders, computes the prior order count and the new tags for each order, and
writes them with `updateOrderTags` — whose `try/catch` swallows a failed
write (lines 77-89).  All other remote failures propagate out of the loops to
the `/run` handler, which answers 500.  The remote API's outcomes are an
explicit environment. -/

structure Order where
  id : Nat
  customer : Option Nat
  created_at : Int
  tags : String
deriving DecidableEq

/-- The string-level read path
`order.tags ? order.tags.split(',').map(t => t.trim()) : []`. -/
def parseTagsS (s : String) : List String :=
  if s = "" then [] else (s.splitOn ",").map String.trim

/-- Outcomes of the remote API for one run. -/
structure DriverEnv where
  customers : Except String (List Nat)
  ordersFor : Nat → Except String (List Order)
  countPrev : Nat → Int → Except String Nat
  putTags : Nat → List String → Except String Unit

/-- Embeds `updateOrderTags`: the PUT outcome is caught — a failed write is logged
and the function returns normally (`src/index.js` lines 77-89). -/
def updateOrderTags (env : DriverEnv) (orderId : Nat) (tags : List String) :
    Except String Unit :=
  match env.putTags orderId tags with
  | .ok _ => .ok ()
  | .error _ => .ok ()

/-- The per-order body of the driver loop: count prior orders (a failure here
propagates), compute tags, write them (write failures are swallowed). -/
def processOrder (env : DriverEnv) (cid : Nat) (o : Order) :
    Except String Unit := do
  let previousCount ← env.countPrev cid o.created_at
  updateOrderTags env o.id (computeTags (parseTagsS o.tags) previousCount)

def processCustomer (env : DriverEnv) (cid : Nat) : Except String Unit := do
  let orders ← env.ordersFor cid
  orders.forM (fun o => processOrder env cid o)

/-- The batch loop `for (let c = 0; c < customers.length; c += BATCH_SIZE)`:
process a slice of 50 customers, then continue with the rest. -/
def processBatches (env : DriverEnv) : List Nat → Except String Unit
  | [] => .ok ()
  | c :: rest =>
    match ((c :: rest).take 50).forM (processCustomer env) with
    | .error e => .error e
    | .ok _ => processBatches env ((c :: rest).drop 50)
termination_by l => l.length
decreasing_by simp; omega

def processOrdersInBatches (env : DriverEnv) : Except String Unit := do
  let customers ← env.customers
  processBatches env customers

/-- The `/run` handler: missing dates give 400; a thrown error gives 500;
otherwise 200. -/
def runHandler (env : DriverEnv) (fromDate toDate : Option String) : Nat :=
  match fromDate, toDate with
  | some _, some _ =>
    match processOrdersInBatches env with
    | .ok _ => 200
    | .error _ => 500
  | _, _ => 400

theorem forM_ok {α E : Type} (l : List α) (f : α → Except E Unit)
    (h : ∀ a ∈ l, f a = .ok ()) : l.forM f = .ok () := by
  induction l with
  | nil => rfl
  | cons a as ih =>
    rw [List.forM_cons', h a (List.mem_cons_self a as)]
    exact ih (fun b hb => h b (List.mem_cons_of_mem _ hb))

theorem updateOrderTags_ok (env : DriverEnv) (orderId : Nat) (tags : List String) :
    updateOrderTags env orderId tags = .ok () := by
  unfold updateOrderTags
  split <;> rfl

theorem processOrder_ok (env : DriverEnv) (cid : Nat) (o : Order)
    (hcnt : ∃ n, env.countPrev cid o.created_at = .ok n) :
    processOrder env cid o = .ok () := by
  obtain ⟨n, hn⟩ := hcnt
  unfold processOrder
  rw [hn]
  exact updateOrderTags_ok env o.id _

theorem processCustomer_ok (env : DriverEnv) (cid : Nat)
    (hord : ∃ os, env.ordersFor cid = .ok os)
    (hcnt : ∀ t, ∃ n, env.countPrev cid t = .ok n) :
    processCustomer env cid = .ok () := by
  obtain ⟨os, hos⟩ := hord
  unfold processCustomer
  rw [hos]
  exact forM_ok os _ (fun o _ => processOrder_ok env cid o (hcnt o.created_at))

theorem processBatches_ok (env : DriverEnv)
    (hc : ∀ cid, processCustomer env cid = .ok ()) (cs : List Nat) :
    processBatches env cs = .ok () := by
  have key : ∀ (n : Nat) (l : List Nat), l.length ≤ n →
      processBatches env l = .ok () := by
    intro n
    induction n with
    | zero =>
      intro l hl
      rw [List.length_eq_zero.1 (Nat.le_zero.1 hl)]
      simp [processBatches]
    | succ n ih =>
      intro l hl
      match l with
      | [] => simp [processBatches]
      | c :: rest =>
        rw [processBatches]
        rw [forM_ok _ _ (fun cid _ => hc cid)]
        exact ih _ (by
          simp only [List.length_drop, List.length_cons] at hl ⊢
          omega)
  exact key cs.length cs le_rfl

/-- C4 counterexample environment: one customer with one order; the
prior-order-count query fails terminally, every write succeeds. -/
def countFailEnv : DriverEnv where
  customers := .ok [1]
  ordersFor := fun _ => .ok [{ id := 1, customer := some 1, created_at := 0, tags := "" }]
  countPrev := fun _ _ => .error "count failed"
  putTags := fun _ _ => .ok ()

/-- C4 counterexample: a single subject's terminal prior-order-count failure
aborts the whole run (the claim says it would be reported and processing
would continue) and surfaces at the trigger interface as a 500. -/
theorem countFail_aborts_run :
    processOrdersInBatches countFailEnv = .error "count failed" ∧
    runHandler countFailEnv (some "2024-01-01") (some "2024-01-31") = 500 := by
  have h : processOrdersInBatches countFailEnv = .error "count failed" := by
    show processBatches countFailEnv [1] = .error "count failed"
    rw [processBatches.eq_def]
    rfl
  exact ⟨h, by simp [runHandler, h]⟩

/-- C4 (amended): the run ends successfully after every subject has been
attempted when the reads succeed — a subject's failed tag write is caught,
reported and processing continues — but a failed prior-order-count query
aborts the run (see the counterexample), and a failure while enumerating the
scope (listing customers) aborts the whole run and surfaces to the trigger
interface as a failure. -/
theorem driver_error_handling (env : DriverEnv) (e : String) :
    ((∃ cs, env.customers = .ok cs) →
      (∀ cid, ∃ os, env.ordersFor cid = .ok os) →
      (∀ cid t, ∃ n, env.countPrev cid t = .ok n) →
      processOrdersInBatches env = .ok ()) ∧
    (env.customers = .error e →
      processOrdersInBatches env = .error e ∧
      runHandler env (some "f") (some "t") = 500) := by
  constructor
  · intro ⟨cs, hcs⟩ hord hcnt
    unfold processOrdersInBatches
    rw [hcs]
    exact processBatches_ok env
      (fun cid => processCustomer_ok env cid (hord cid) (hcnt cid)) cs
  · intro hcs
    have h : processOrdersInBatches env = .error e := by
      unfold processOrdersInBatches
      rw [hcs]
      rfl
    exact ⟨h, by simp [runHandler, h]⟩

/-- An environment whose reads all succeed and whose writes all fail. -/
def writeFailEnv : DriverEnv where
  customers := .ok [1, 2]
  ordersFor := fun cid =>
    .ok [{ id := 10 * cid, customer := some cid, created_at := 0, tags := "vip" }]
  countPrev := fun _ _ => .ok 0
  putTags := fun _ _ => .error "write failed"

/-- An environment whose customer listing fails. -/
def scopeFailEnv : DriverEnv where
  customers := .error "listing failed"
  ordersFor := fun _ => .ok []
  countPrev := fun _ _ => .ok 0
  putTags := fun _ _ => .ok ()

/-- Witness for the amended C4: with failing writes the run still ends
successfully; with a failing customer listing the run fails and the trigger
interface answers 500. -/
theorem driver_error_handling_witness :
    processOrdersInBatches writeFailEnv = .ok () ∧
    processOrdersInBatches scopeFailEnv = .error "listing failed" ∧
    runHandler scopeFailEnv (some "f") (some "t") = 500 := by
  refine ⟨?_, ?_, ?_⟩
  · exact (driver_error_handling writeFailEnv "x").1 ⟨[1, 2], rfl⟩
      (fun cid => ⟨_, rfl⟩) (fun cid t => ⟨0, rfl⟩)
  · exact ((driver_error_handling scopeFailEnv "listing failed").2 rfl).1
  · exact ((driver_error_handling scopeFailEnv "listing failed").2 rfl).2

/-! ### Rate-limiter gating (C5)

In `src/unnamed/part_001`, the Bottleneck limiter (`maxConcurrent: 2`,
`minTime: 300`, lines 24-27) wraps only `getPreviousOrderCount` and
`updateOrderTags` (`limiter.wrap`, lines 84 and 100).  The scope listing
`getAllOrders` (lines 53-66) calls `api.get` through `retryRequest` directly.
Each outbound dispatch of a run is recorded together with a flag saying
whether it is issued through the shared limiter gate (a wrapped
`getPreviousOrderCount`/`updateOrderTags` job counts as one gated dispatch
covering its pages); real-time spacing itself is not modelled. -/

def limiterMaxConcurrent : Nat := 2

def limiterMinTime : Nat := 300

inductive RemoteCall where
  | listOrders (page : Nat)
  | countOrders (cid : Nat)
  | putTags (oid : Nat)
deriving DecidableEq

/-- The page requests of `getAllOrders`: issued directly, not through the
limiter. -/
def getAllOrdersCallsTrace (numPages : Nat) : List (RemoteCall × Bool) :=
  (List.range numPages).map (fun p => (RemoteCall.listOrders p, false))

/-- The dispatches of one order's processing: skipped entirely when the order
has no customer; otherwise a gated prior-order-count job and a gated
tag-update job. -/
def processOrderCalls (o : Order) : List (RemoteCall × Bool) :=
  match o.customer with
  | none => []
  | some cid => [(RemoteCall.countOrders cid, true), (RemoteCall.putTags o.id, true)]

/-- All dispatches of a run of `processAllOrders`: the listing pages, then the
per-order jobs. -/
def runCalls (numPages : Nat) (orders : List Order) : List (RemoteCall × Bool) :=
  getAllOrdersCallsTrace numPages ++ orders.flatMap processOrderCalls

/-- C5 counterexample: already in a run over one listing page and no orders,
the listing read is dispatched outside the limiter gate, so not every
outbound remote call passes through it. -/
theorem runCalls_not_all_limited :
    (RemoteCall.listOrders 0, false) ∈ runCalls 1 [] ∧
    ¬ (∀ c ∈ runCalls 1 [], c.2 = true) := by
  decide

/-- C5 (amended): the prior-order-count reads and the tag-update writes pass
through the single shared limiter gate, but the order-listing reads are
issued directly to the API (through the retry wrapper only) and bypass the
gate — a call is gated exactly when it is not a listing read. -/
theorem runCalls_gating (numPages : Nat) (orders : List Order) :
    ∀ c ∈ runCalls numPages orders,
      c.2 = (match c.1 with
             | RemoteCall.listOrders _ => false
             | _ => true) := by
  intro c hc
  rcases List.mem_append.1 hc with h | h
  · obtain ⟨p, -, rfl⟩ := List.mem_map.1 h
    rfl
  · obtain ⟨o, -, hmem⟩ := List.mem_flatMap.1 h
    unfold processOrderCalls at hmem
    match ho : o.customer with
    | none => rw [ho] at hmem; cases hmem
    | some cid =>
      rw [ho] at hmem
      simp only [List.mem_cons, List.not_mem_nil, or_false] at hmem
      rcases hmem with rfl | rfl <;> rfl

/-- A sample order with a customer, used by the C5 witness. -/
def sampleOrder : Order := { id := 7, customer := some 5, created_at := 0, tags := "" }

/-- Witness for the amended C5 at a concrete gated dispatch. -/
theorem runCalls_gating_witness :
    (RemoteCall.countOrders 5, true) ∈ runCalls 1 [sampleOrder] ∧
    ((RemoteCall.countOrders 5, true) : RemoteCall × Bool).2 = true :=
  ⟨by decide, runCalls_gating 1 [sampleOrder] (RemoteCall.countOrders 5, true) (by decide)⟩

/-! ### Skipping orders without a customer (C8)

Embeds the per-order skip of `src/unnamed/part_000` lines 99-103 (identical
in `src/unnamed/part_001` lines 110-114): `if (!customer) { log; continue }`.
`processAllOrdersWrites` is the sequence of tag writes the sequential driver
performs, `processAllOrdersCalls` its dispatch trace. -/

def processAllOrdersCalls (orders : List Order) : List (RemoteCall × Bool) :=
  orders.flatMap processOrderCalls

/-- The writes performed by `processAllOrders` given the remote prior-order
counts: orders without a customer are skipped, every other order gets its
computed tags written. -/
def processAllOrdersWrites (count : Nat → Int → Nat) (orders : List Order) :
    List (Nat × List String) :=
  orders.filterMap (fun o =>
    o.customer.map (fun cid =>
      (o.id, computeTags (parseTagsS o.tags) (count cid o.created_at))))

theorem processAllOrdersCalls_filter (orders : List Order) :
    processAllOrdersCalls orders =
      processAllOrdersCalls (orders.filter (fun x => x.customer.isSome)) := by
  induction orders with
  | nil => rfl
  | cons o rest ih =>
    unfold processAllOrdersCalls at *
    match ho : o.customer with
    | none =>
      rw [List.flatMap_cons, List.filter_cons]
      simp only [ho, Option.isSome_none, Bool.false_eq_true, if_false]
      rw [show processOrderCalls o = [] from by unfold processOrderCalls; rw [ho]]
      simpa using ih
    | some cid =>
      rw [List.flatMap_cons, List.filter_cons]
      simp only [ho, Option.isSome_some, if_true]
      rw [List.flatMap_cons, ih]

theorem processAllOrdersWrites_filter (count : Nat → Int → Nat)
    (orders : List Order) :
    processAllOrdersWrites count orders =
      processAllOrdersWrites count (orders.filter (fun x => x.customer.isSome)) := by
  induction orders with
  | nil => rfl
  | cons o rest ih =>
    unfold processAllOrdersWrites at *
    match ho : o.customer with
    | none =>
      rw [List.filterMap_cons, List.filter_cons]
      simp only [ho, Option.map_none, Option.isSome_none, Bool.false_eq_true, if_false]
      exact ih
    | some cid =>
      rw [List.filterMap_cons, List.filter_cons]
      simp only [ho, Option.map_some, Option.isSome_some, if_true]
      rw [List.filterMap_cons]
      simp only [ho, Option.map_some]
      rw [ih]

/-- C8: an order whose customer reference is null is skipped: it contributes
no dispatch at all (in particular no prior-order-count query and no tag
write), no write for its id occurs anywhere in the run (ids being unique),
and the run still completes over the remaining orders — the trace and the
writes are those of the customer-bearing orders, and every customer-bearing
order does get its write. -/
theorem skip_null_customer (count : Nat → Int → Nat) (orders : List Order)
    (o : Order) (ho : o ∈ orders) (hnone : o.customer = none)
    (hids : (orders.map Order.id).Nodup) :
    processOrderCalls o = [] ∧
    (∀ g : Bool, (RemoteCall.putTags o.id, g) ∉ processAllOrdersCalls orders) ∧
    processAllOrdersCalls orders =
      processAllOrdersCalls (orders.filter (fun x => x.customer.isSome)) ∧
    processAllOrdersWrites count orders =
      processAllOrdersWrites count (orders.filter (fun x => x.customer.isSome)) ∧
    (∀ o' ∈ orders, ∀ cid, o'.customer = some cid →
      (o'.id, computeTags (parseTagsS o'.tags) (count cid o'.created_at)) ∈
        processAllOrdersWrites count orders) := by
  have hcalls : processOrderCalls o = [] := by
    unfold processOrderCalls
    rw [hnone]
  refine ⟨hcalls, ?_, processAllOrdersCalls_filter orders,
    processAllOrdersWrites_filter count orders, ?_⟩
  · intro g hmem
    obtain ⟨o', ho', hm⟩ := List.mem_flatMap.1 hmem
    unfold processOrderCalls at hm
    match hc : o'.customer with
    | none => rw [hc] at hm; cases hm
    | some cid =>
      rw [hc] at hm
      simp only [List.mem_cons, List.not_mem_nil, or_false] at hm
      rcases hm with hm | hm
      · exact RemoteCall.noConfusion (congrArg Prod.fst hm)
      · have hid : o'.id = o.id := (RemoteCall.putTags.inj (congrArg Prod.fst hm)).symm
        have heq : o' = o := List.inj_on_of_nodup_map hids ho' ho hid
        rw [heq, hnone] at hc
        cases hc
  · intro o' ho' cid hcid
    refine List.mem_filterMap.2 ⟨o', ho', ?_⟩
    rw [hcid]
    rfl

/-- An order without a customer and one with a customer, for the C8 witness. -/
def nullOrder : Order := { id := 1, customer := none, created_at := 0, tags := "" }

def vipOrder : Order := { id := 2, customer := some 5, created_at := 10, tags := "vip" }

def skipOrders : List Order := [nullOrder, vipOrder]

/-- Witness for C8 at a concrete scope containing a customer-less order. -/
theorem skip_null_customer_witness :
    nullOrder ∈ skipOrders ∧ nullOrder.customer = none ∧
    processOrderCalls nullOrder = [] ∧
    (RemoteCall.putTags nullOrder.id, true) ∉ processAllOrdersCalls skipOrders := by
  have h := skip_null_customer (fun _ _ => 0) skipOrders nullOrder (by decide) rfl (by decide)
  exact ⟨by decide, rfl, h.1, h.2.1 true⟩

/-! ### Prior-order-count cutoff (C9)

Embeds `getPreviousOrderCount` (`src/unnamed/part_001` lines 69-81 and
`src/index.js` lines 64-74): the query filters the customer's orders with
`created_at_max = new Date(new Date(beforeDate).getTime() - 1000).toISOString()`
— an inclusive upper bound of the target's creation timestamp minus 1000 ms —
and sums the page lengths, i.e. counts the matching orders.  Timestamps are
milliseconds (`Int`); the customer's full order history is the list of its
orders' timestamps, and the remote date filter keeps exactly the timestamps
at or below the bound. -/

def getPreviousOrderCount (history : List Int) (beforeDate : Int) : Nat :=
  (history.filter (fun ts => decide (ts ≤ beforeDate - 1000))).length

/-- C9 counterexample: a customer with orders at 0, 900 and 1500 ms.  The
orders at 900 and 1500 are less than one second apart, yet their prior order
counts are 0 and 1 — sequence numbers 1 and 2 — refuting the claim's "two
orders of the same customer created less than one second apart receive the
same sequence number". -/
theorem prevCount_close_orders_differ :
    ((900 : Int) ∈ [(0 : Int), 900, 1500] ∧ (1500 : Int) ∈ [(0 : Int), 900, 1500] ∧
      (1500 : Int) - 900 < 1000) ∧
    getPreviousOrderCount [0, 900, 1500] 900 = 0 ∧
    getPreviousOrderCount [0, 900, 1500] 1500 = 1 ∧
    computeTags [] (getPreviousOrderCount [0, 900, 1500] 900) ≠
      computeTags [] (getPreviousOrderCount [0, 900, 1500] 1500) := by
  refine ⟨by decide, by decide, by decide, ?_⟩
  decide

/-- C9 (amended): the query's inclusive upper bound is the target order's
creation timestamp minus exactly 1000 ms, so an order strictly within 1000 ms
before the target is excluded from the count while one at or before the
cutoff is counted; and two orders of the same customer created less than one
second apart receive the same prior order count (hence sequence number)
provided no order of that customer lies between the two cutoffs, i.e. at or
before 1000 ms prior to the later order but after 1000 ms prior to the
earlier one. -/
theorem prevCount_cutoff (history : List Int) (target ts t1 t2 : Int) :
    (target - 1000 < ts →
      getPreviousOrderCount (ts :: history) target =
        getPreviousOrderCount history target) ∧
    (ts ≤ target - 1000 →
      getPreviousOrderCount (ts :: history) target =
        getPreviousOrderCount history target + 1) ∧
    (t1 ≤ t2 → t2 - t1 < 1000 →
      (∀ h ∈ history, ¬(t1 - 1000 < h ∧ h ≤ t2 - 1000)) →
      getPreviousOrderCount history t1 = getPreviousOrderCount history t2) := by
  refine ⟨?_, ?_, ?_⟩
  · intro h
    have hts : decide (ts ≤ target - 1000) = false := by
      simp only [decide_eq_false_iff_not]
      omega
    unfold getPreviousOrderCount
    rw [List.filter_cons, hts]
    simp
  · intro h
    have hts : decide (ts ≤ target - 1000) = true := by
      simpa using h
    unfold getPreviousOrderCount
    rw [List.filter_cons, hts]
    simp
  · intro h12 hclose hgap
    unfold getPreviousOrderCount
    have hfilter : history.filter (fun x => decide (x ≤ t1 - 1000)) =
        history.filter (fun x => decide (x ≤ t2 - 1000)) := by
      refine List.filter_congr (fun x hx => ?_)
      rw [decide_eq_decide]
      constructor
      · intro hle
        omega
      · intro hle
        by_contra hx1
        exact hgap x hx ⟨by omega, hle⟩
    rw [hfilter]

/-- Witness for the amended C9: the customer's history is two orders at 0 and
500 ms; an order at 1500 ms is excluded from the count for a target at
2000 ms, one at 1000 ms is included, and targets at 2000 and 2500 ms (500 ms
apart, no order between the cutoffs 1000 and 1500) get the same prior order
count. -/
theorem prevCount_cutoff_witness :
    getPreviousOrderCount [1500, 0, 500] 2000 = getPreviousOrderCount [0, 500] 2000 ∧
    getPreviousOrderCount [1000, 0, 500] 2000 = getPreviousOrderCount [0, 500] 2000 + 1 ∧
    getPreviousOrderCount [0, 500] 2000 = getPreviousOrderCount [0, 500] 2500 := by
  refine ⟨?_, ?_, ?_⟩
  · exact (prevCount_cutoff [0, 500] 2000 1500 0 0).1 (by norm_num)
  · exact (prevCount_cutoff [0, 500] 2000 1000 0 0).2.1 (by norm_num)
  · exact (prevCount_cutoff [0, 500] 0 0 2000 2500).2.2 (by norm_num) (by norm_num)
      (by decide)

end WondTags
